import Mathlib

/-!
Verification of the admission / rate-limiting core of the picfast image-hosting
service (`src/index.js`).  The definitions below are a shallow embedding of the
JavaScript source: timestamps and sizes are naturals (milliseconds / bytes),
the per-client record in `rateLimitStore` becomes `RateData`, the HTTP 429
responses become the `Decision.reject` constructor carrying exactly the JSON
fields the code sends, and the `POST /upload` route around the middleware
becomes `processUpload`.
-/

/-- An element of `rateData.uploads` as pushed in the `POST /upload` handler:
`{ timestamp: Date.now(), size: req.file.size, filename: outputFilename }`. -/
structure UploadEvent where
  timestamp : Nat
  size : Nat
  filename : String
deriving Repr, DecidableEq

/-- The per-client entry of `rateLimitStore`:
`{ uploads: [], violations: 0, blockedUntil: null }`.
`blockedUntil` is `none` for JavaScript `null`. -/
structure RateData where
  uploads : List UploadEvent
  violations : Nat
  blockedUntil : Option Nat
deriving Repr, DecidableEq

/-- The `RATE_LIMITS` configuration object. -/
structure RateLimitsConfig where
  perMinute : Nat
  perHour : Nat
  perDay : Nat
  hourlySize : Nat
deriving Repr, DecidableEq

def RATE_LIMITS : RateLimitsConfig :=
  { perMinute := 15
    perHour := 100
    perDay := 150
    hourlySize := 50 * 1024 * 1024 }

/-- Outcome of `rateLimitMiddleware` for one request.  `allow` models calling
`next()`; `reject` models the `res.status(429).json({...})` responses, with
`violations? = none` when the JSON body has no `violations` key (the
already-blocked response at lines 41-44) and `some v` when it does
(the fresh-violation response at lines 94-98). -/
inductive Decision where
  | allow : Decision
  | reject (error : String) (blockedUntil : Nat) (violations? : Option Nat) : Decision
deriving Repr, DecidableEq

/-- `true` iff the rejection body carries a `violations` field. -/
def Decision.hasViolationCount : Decision → Bool
  | .reject _ _ (some _) => true
  | _ => false

/-- The guard `rateData.blockedUntil && now < rateData.blockedUntil`:
JavaScript `null` and `0` are falsy. -/
def isBlocked (rateData : RateData) (now : Nat) : Bool :=
  match rateData.blockedUntil with
  | none => false
  | some b => b != 0 && now < b

/-- Line 48: `rateData.uploads.filter(upload => now - upload.timestamp < 24*60*60*1000)`. -/
def pruneUploads (now : Nat) (uploads : List UploadEvent) : List UploadEvent :=
  uploads.filter (fun u => now - u.timestamp < 24 * 60 * 60 * 1000)

/-- Lines 51-53: `uploads.filter(upload => now - upload.timestamp < window)`. -/
def windowUploads (window now : Nat) (uploads : List UploadEvent) : List UploadEvent :=
  uploads.filter (fun u => now - u.timestamp < window)

/-- Line 55: `hourUploads.reduce((total, upload) => total + upload.size, 0)`. -/
def sumSizes (uploads : List UploadEvent) : Nat :=
  uploads.foldl (fun total u => total + u.size) 0

/-- Line 40: `Math.ceil((blockedUntil - now) / 1000 / 60)` (minutes, rounded up). -/
def remainingMinutes (blockedUntil now : Nat) : Nat :=
  (blockedUntil - now + 59999) / 60000

/-- The `error` string of the already-blocked 429 response (line 42). -/
def blockedMessage (blockedUntil now : Nat) : String :=
  let m := remainingMinutes blockedUntil now
  s!"Rate limit exceeded. Please try again in {m} minutes."

def minuteLimitMessage : String :=
  "Too many uploads per minute. Please wait before uploading again."

def hourLimitMessage : String :=
  "Hourly upload limit reached. Please try again later."

def dayLimitMessage : String :=
  "Daily upload limit reached. Please try again tomorrow."

def sizeLimitMessage : String :=
  "Hourly file size limit reached. Please try again later."

/-- Lines 79-88: the progressive-punishment table, keyed by the value of
`rateData.violations` after the increment. -/
def blockDurationFor (violations : Nat) : Nat :=
  if violations = 1 then 5 * 60 * 1000
  else if violations = 2 then 15 * 60 * 1000
  else if violations = 3 then 60 * 60 * 1000
  else 24 * 60 * 60 * 1000

/-- Lines 75-98: on a violation, increment `violations`, compute the block
duration from the new count, set `blockedUntil = now + blockDuration` and
answer 429 with `{ error, blockedUntil, violations }`.  `uploads` is the
already-pruned list assigned at line 48. -/
def applyViolation (rateData : RateData) (uploads : List UploadEvent) (now : Nat)
    (violationMessage : String) : Decision × RateData :=
  let violations := rateData.violations + 1
  let blockedUntil := now + blockDurationFor violations
  (Decision.reject violationMessage blockedUntil (some violations),
   { uploads := uploads, violations := violations, blockedUntil := some blockedUntil })

/-- `rateLimitMiddleware` (lines 23-106) for one client: takes the client's
current `RateData` and `now = Date.now()`, returns the decision together with
the client's entry as the middleware leaves it in `rateLimitStore`. -/
def rateLimitMiddleware (rateData : RateData) (now : Nat) : Decision × RateData :=
  if isBlocked rateData now then
    let b := rateData.blockedUntil.getD 0
    (Decision.reject (blockedMessage b now) b none, rateData)
  else
    let uploads := pruneUploads now rateData.uploads
    let minuteUploads := windowUploads (60 * 1000) now uploads
    let hourUploads := windowUploads (60 * 60 * 1000) now uploads
    let dayUploads := windowUploads (24 * 60 * 60 * 1000) now uploads
    let hourlySize := sumSizes hourUploads
    if minuteUploads.length ≥ RATE_LIMITS.perMinute then
      applyViolation rateData uploads now minuteLimitMessage
    else if hourUploads.length ≥ RATE_LIMITS.perHour then
      applyViolation rateData uploads now hourLimitMessage
    else if dayUploads.length ≥ RATE_LIMITS.perDay then
      applyViolation rateData uploads now dayLimitMessage
    else if hourlySize ≥ RATE_LIMITS.hourlySize then
      applyViolation rateData uploads now sizeLimitMessage
    else
      (Decision.allow, { rateData with uploads := uploads })

/-- Lines 250-261 of the `POST /upload` handler, run only after the upload has
been stored: push `{ timestamp: Date.now(), size, filename }` onto
`uploads`, reset `violations` to 0 and clear `blockedUntil`. -/
def recordUpload (rateData : RateData) (timestamp size : Nat) (filename : String) : RateData :=
  { uploads := rateData.uploads ++ [{ timestamp := timestamp, size := size, filename := filename }]
    violations := 0
    blockedUntil := none }

/-- The `POST /upload` route around the rate limiter: the middleware runs
first; if it admits, the upload pipeline either completes (`completes = true`:
the file is stored and the event is recorded at `recordTime`, a later
`Date.now()`), or fails before the record step (`completes = false`: no file
uploaded, the extra size check, or HEIC conversion failure), in which case
nothing is recorded. -/
def processUpload (rateData : RateData) (now size : Nat) (filename : String)
    (completes : Bool) (recordTime : Nat) : Decision × RateData :=
  match rateLimitMiddleware rateData now with
  | (Decision.allow, d) =>
      if completes then (Decision.allow, recordUpload d recordTime size filename)
      else (Decision.allow, d)
  | r => r

/-- The cleanup filter of the hourly `setInterval` (line 115):
`upload.timestamp > oneDayAgo` with `oneDayAgo = now - 24*60*60*1000`. -/
def sweepPrune (now : Nat) (uploads : List UploadEvent) : List UploadEvent :=
  uploads.filter (fun u => u.timestamp > now - 24 * 60 * 60 * 1000)

/-- `!data.blockedUntil || now > data.blockedUntil` (line 118); `null` and `0`
are falsy. -/
def unblockedOrExpired (now : Nat) : Option Nat → Bool
  | none => true
  | some b => b == 0 || now > b

/-- One iteration of the cleanup loop (lines 113-121) on a single entry:
prune, then delete the entry (`none`) when
`uploads.length === 0 && (!blockedUntil || now > blockedUntil)`. -/
def sweepEntry (now : Nat) (data : RateData) : Option RateData :=
  let pruned : RateData := { data with uploads := sweepPrune now data.uploads }
  if pruned.uploads.length == 0 && unblockedOrExpired now data.blockedUntil then
    none
  else
    some pruned

/-- The whole hourly cleanup pass over `rateLimitStore` (lines 109-124),
with the store as an association list keyed by client IP. -/
def sweepAll (now : Nat) (store : List (String × RateData)) : List (String × RateData) :=
  store.filterMap (fun e => (sweepEntry now e.2).map (fun d => (e.1, d)))

/-- A fresh `rateLimitStore` entry (lines 28-32). -/
def freshRateData : RateData :=
  { uploads := [], violations := 0, blockedUntil := none }

/-- Fold a sequence of upload requests, each of the given size and all
completing successfully, through `processUpload`; `times` are the request
(and record) timestamps. -/
def runUploads (rateData : RateData) (times : List Nat) (size : Nat) : RateData :=
  times.foldl (fun d t => (processUpload d t size "f.jpg" true t).2) rateData

/-- The quota conditions of lines 61-73, as predicates over a client's state. -/
def minuteViolated (uploads : List UploadEvent) (now : Nat) : Prop :=
  (windowUploads (60 * 1000) now (pruneUploads now uploads)).length ≥ RATE_LIMITS.perMinute

def hourViolated (uploads : List UploadEvent) (now : Nat) : Prop :=
  (windowUploads (60 * 60 * 1000) now (pruneUploads now uploads)).length ≥ RATE_LIMITS.perHour

def dayViolated (uploads : List UploadEvent) (now : Nat) : Prop :=
  (windowUploads (24 * 60 * 60 * 1000) now (pruneUploads now uploads)).length ≥ RATE_LIMITS.perDay

def hourSizeViolated (uploads : List UploadEvent) (now : Nat) : Prop :=
  sumSizes (windowUploads (60 * 60 * 1000) now (pruneUploads now uploads)) ≥ RATE_LIMITS.hourlySize

/-- All four quotas strictly under their limits, exactly as the middleware
computes them (over the pruned upload list). -/
def withinQuotas (uploads : List UploadEvent) (now : Nat) : Prop :=
  ¬ minuteViolated uploads now ∧ ¬ hourViolated uploads now ∧
  ¬ dayViolated uploads now ∧ ¬ hourSizeViolated uploads now

instance (uploads : List UploadEvent) (now : Nat) : Decidable (withinQuotas uploads now) := by
  unfold withinQuotas minuteViolated hourViolated dayViolated hourSizeViolated
  infer_instance

example : rateLimitMiddleware freshRateData 0 = (Decision.allow, freshRateData) := by decide

/-! ## General lemmas about the middleware -/

instance (uploads : List UploadEvent) (now : Nat) : Decidable (minuteViolated uploads now) := by
  unfold minuteViolated
  infer_instance

instance (uploads : List UploadEvent) (now : Nat) : Decidable (hourViolated uploads now) := by
  unfold hourViolated
  infer_instance

instance (uploads : List UploadEvent) (now : Nat) : Decidable (dayViolated uploads now) := by
  unfold dayViolated
  infer_instance

instance (uploads : List UploadEvent) (now : Nat) : Decidable (hourSizeViolated uploads now) := by
  unfold hourSizeViolated
  infer_instance

/-- Pruning at time `now` removes only events that no window can see at any
time `nowLater ≥ now`: the window filters give the same result on the pruned
and the unpruned list, for every window of at most 24 hours. -/
theorem windowUploads_pruneUploads (w now nowLater : Nat) (hw : w ≤ 24 * 60 * 60 * 1000)
    (hn : now ≤ nowLater) (l : List UploadEvent) :
    windowUploads w nowLater (pruneUploads now l) = windowUploads w nowLater l := by
  unfold windowUploads pruneUploads
  induction l with
  | nil => rfl
  | cons u t ih =>
    simp only [List.filter_cons]
    by_cases h1 : nowLater - u.timestamp < w
    · have h2 : now - u.timestamp < 24 * 60 * 60 * 1000 := by
        have := Nat.sub_le_sub_right hn u.timestamp
        omega
      simp [h1, h2, List.filter_cons, ih]
    · by_cases h2 : now - u.timestamp < 24 * 60 * 60 * 1000
      · simp [h1, h2, List.filter_cons, ih]
      · simp [h1, h2, ih]

/-- When the client is not currently blocked, the middleware reduces to the
priority cascade of quota checks over the pruned upload list. -/
theorem middleware_not_blocked (d : RateData) (now : Nat) (h : isBlocked d now = false) :
    rateLimitMiddleware d now =
      (if minuteViolated d.uploads now then
        applyViolation d (pruneUploads now d.uploads) now minuteLimitMessage
      else if hourViolated d.uploads now then
        applyViolation d (pruneUploads now d.uploads) now hourLimitMessage
      else if dayViolated d.uploads now then
        applyViolation d (pruneUploads now d.uploads) now dayLimitMessage
      else if hourSizeViolated d.uploads now then
        applyViolation d (pruneUploads now d.uploads) now sizeLimitMessage
      else (Decision.allow, { d with uploads := pruneUploads now d.uploads })) := by
  unfold rateLimitMiddleware minuteViolated hourViolated dayViolated hourSizeViolated
  rw [if_neg]
  simp [h]

/-- When the client is blocked, the middleware rejects with the stored
`blockedUntil`, no `violations` field, and leaves the entry untouched. -/
theorem middleware_blocked (d : RateData) (now b : Nat)
    (hb : d.blockedUntil = some b) (hnow : now < b) :
    rateLimitMiddleware d now = (Decision.reject (blockedMessage b now) b none, d) := by
  have hb0 : b ≠ 0 := by omega
  have hblk : isBlocked d now = true := by
    simp [isBlocked, hb, hnow, hb0]
  unfold rateLimitMiddleware
  rw [if_pos hblk, hb]
  rfl

/-- Exhaustive case analysis of one middleware run: either the client is
blocked, or exactly one quota violation fires (with its message), or the
request is admitted. -/
theorem middleware_cases (d : RateData) (now : Nat) :
    (∃ b, d.blockedUntil = some b ∧ b ≠ 0 ∧ now < b ∧
        rateLimitMiddleware d now = (Decision.reject (blockedMessage b now) b none, d)) ∨
    (∃ m, (m = minuteLimitMessage ∨ m = hourLimitMessage ∨
           m = dayLimitMessage ∨ m = sizeLimitMessage) ∧
        rateLimitMiddleware d now = applyViolation d (pruneUploads now d.uploads) now m) ∨
    rateLimitMiddleware d now =
      (Decision.allow, { d with uploads := pruneUploads now d.uploads }) := by
  by_cases hblk : isBlocked d now
  · left
    unfold isBlocked at hblk
    cases hbu : d.blockedUntil with
    | none => rw [hbu] at hblk; simp at hblk
    | some b =>
      rw [hbu] at hblk
      simp only [bne_iff_ne, ne_eq, Bool.and_eq_true, decide_eq_true_eq] at hblk
      obtain ⟨hb0, hlt⟩ := hblk
      refine ⟨b, rfl, hb0, hlt, ?_⟩
      unfold rateLimitMiddleware
      rw [if_pos]
      · rw [hbu]
        rfl
      · unfold isBlocked
        rw [hbu]
        simp [hb0, hlt]
  · rw [middleware_not_blocked d now (by simpa using hblk)]
    right
    by_cases h1 : minuteViolated d.uploads now
    · exact Or.inl ⟨minuteLimitMessage, Or.inl rfl, by rw [if_pos h1]⟩
    · rw [if_neg h1]
      by_cases h2 : hourViolated d.uploads now
      · exact Or.inl ⟨hourLimitMessage, Or.inr (Or.inl rfl), by rw [if_pos h2]⟩
      · rw [if_neg h2]
        by_cases h3 : dayViolated d.uploads now
        · exact Or.inl ⟨dayLimitMessage, Or.inr (Or.inr (Or.inl rfl)), by rw [if_pos h3]⟩
        · rw [if_neg h3]
          by_cases h4 : hourSizeViolated d.uploads now
          · exact Or.inl ⟨sizeLimitMessage, Or.inr (Or.inr (Or.inr rfl)), by rw [if_pos h4]⟩
          · rw [if_neg h4]
            exact Or.inr rfl

/-- A rejection that carries a `violations` field comes from the quota
cascade: the count is the old count plus one, `blockedUntil` is `now` plus the
escalation duration for the new count, and the stored entry is updated
accordingly. -/
theorem middleware_reject_some (d : RateData) (now : Nat) (msg : String) (b v : Nat)
    (h : (rateLimitMiddleware d now).1 = Decision.reject msg b (some v)) :
    v = d.violations + 1 ∧ b = now + blockDurationFor v ∧
      (rateLimitMiddleware d now).2 =
        { uploads := pruneUploads now d.uploads, violations := v, blockedUntil := some b } := by
  rcases middleware_cases d now with ⟨bb, _, _, _, heq⟩ | ⟨m, _, heq⟩ | heq
  · rw [heq] at h
    simp at h
  · rw [heq] at h ⊢
    simp only [applyViolation] at h ⊢
    simp at h
    obtain ⟨h1, h2, h3⟩ := h
    subst h3
    subst h2
    exact ⟨rfl, rfl, rfl⟩
  · rw [heq] at h
    simp at h

/-- A rejection without a `violations` field comes from the blocked path:
the carried `blockedUntil` is the stored one, still in the future, the message
is the blocked message, and the entry is left untouched. -/
theorem middleware_reject_none (d : RateData) (now : Nat) (msg : String) (b : Nat)
    (h : (rateLimitMiddleware d now).1 = Decision.reject msg b none) :
    d.blockedUntil = some b ∧ now < b ∧
      msg = blockedMessage b now ∧ (rateLimitMiddleware d now).2 = d := by
  rcases middleware_cases d now with ⟨bb, hbu, _, hlt, heq⟩ | ⟨m, _, heq⟩ | heq
  · rw [heq] at h ⊢
    simp at h
    obtain ⟨h1, h2⟩ := h
    subst h2
    exact ⟨hbu, hlt, h1.symm, rfl⟩
  · rw [heq] at h
    simp [applyViolation] at h
  · rw [heq] at h
    simp at h

/-- When the client is not blocked, exactly one of five things happens,
following the priority order of the cascade: the minute check fires; or it
does not and the hour check fires; or neither does and the day check fires;
or none of those and the hour-size check fires; or the client is within all
quotas and is admitted. -/
theorem middleware_quota_cases (d : RateData) (now : Nat) (hblk : isBlocked d now = false) :
    (minuteViolated d.uploads now ∧
       rateLimitMiddleware d now =
         applyViolation d (pruneUploads now d.uploads) now minuteLimitMessage) ∨
    (¬ minuteViolated d.uploads now ∧ hourViolated d.uploads now ∧
       rateLimitMiddleware d now =
         applyViolation d (pruneUploads now d.uploads) now hourLimitMessage) ∨
    (¬ minuteViolated d.uploads now ∧ ¬ hourViolated d.uploads now ∧
       dayViolated d.uploads now ∧
       rateLimitMiddleware d now =
         applyViolation d (pruneUploads now d.uploads) now dayLimitMessage) ∨
    (¬ minuteViolated d.uploads now ∧ ¬ hourViolated d.uploads now ∧
       ¬ dayViolated d.uploads now ∧ hourSizeViolated d.uploads now ∧
       rateLimitMiddleware d now =
         applyViolation d (pruneUploads now d.uploads) now sizeLimitMessage) ∨
    (withinQuotas d.uploads now ∧
       rateLimitMiddleware d now =
         (Decision.allow, { d with uploads := pruneUploads now d.uploads })) := by
  rw [middleware_not_blocked d now hblk]
  by_cases h1 : minuteViolated d.uploads now
  · exact Or.inl ⟨h1, by rw [if_pos h1]⟩
  · rw [if_neg h1]
    by_cases h2 : hourViolated d.uploads now
    · exact Or.inr (Or.inl ⟨h1, h2, by rw [if_pos h2]⟩)
    · rw [if_neg h2]
      by_cases h3 : dayViolated d.uploads now
      · exact Or.inr (Or.inr (Or.inl ⟨h1, h2, h3, by rw [if_pos h3]⟩))
      · rw [if_neg h3]
        by_cases h4 : hourSizeViolated d.uploads now
        · exact Or.inr (Or.inr (Or.inr (Or.inl ⟨h1, h2, h3, h4, by rw [if_pos h4]⟩)))
        · rw [if_neg h4]
          exact Or.inr (Or.inr (Or.inr (Or.inr ⟨⟨h1, h2, h3, h4⟩, rfl⟩)))

/-- If `isBlocked` holds, the stored `blockedUntil` is a nonzero timestamp in
the future. -/
theorem isBlocked_elim (d : RateData) (now : Nat) (hblk : isBlocked d now = true) :
    ∃ b, d.blockedUntil = some b ∧ b ≠ 0 ∧ now < b := by
  unfold isBlocked at hblk
  cases hbu : d.blockedUntil with
  | none => rw [hbu] at hblk; simp at hblk
  | some b =>
    rw [hbu] at hblk
    simp only [bne_iff_ne, ne_eq, Bool.and_eq_true, decide_eq_true_eq] at hblk
    exact ⟨b, rfl, hblk.1, hblk.2⟩

/-- If the middleware admits, the stored entry is only pruned: no event is
added, `violations` and `blockedUntil` are unchanged. -/
theorem middleware_allow_snd (d : RateData) (now : Nat)
    (h : (rateLimitMiddleware d now).1 = Decision.allow) :
    (rateLimitMiddleware d now).2 = { d with uploads := pruneUploads now d.uploads } := by
  rcases middleware_cases d now with ⟨bb, _, _, _, heq⟩ | ⟨m, _, heq⟩ | heq
  · rw [heq] at h
    simp at h
  · rw [heq] at h
    simp [applyViolation] at h
  · rw [heq]


/-! ## Claim theorems -/

/-- C1: An upload request is never rejected for the minute quota while fewer
than 15 recorded events lie in the trailing 60-second window; and a fresh
client whose 15 uploads within 60 seconds were all admitted and recorded gets
its 16th upload rejected with `violations = 1` and
`blockedUntil = now + 5 minutes`. -/
theorem minute_quota_sound_and_sixteenth_rejected :
    (∀ (d : RateData) (now : Nat),
        (windowUploads (60 * 1000) now d.uploads).length < RATE_LIMITS.perMinute →
        ∀ b v, (rateLimitMiddleware d now).1 ≠ Decision.reject minuteLimitMessage b (some v)) ∧
    (List.range 15).map
        (fun i => (processUpload (runUploads freshRateData (List.range i) 1000) i
                     1000 "f.jpg" true i).1)
      = List.replicate 15 Decision.allow ∧
    (runUploads freshRateData (List.range 15) 1000).uploads.length = 15 ∧
    rateLimitMiddleware (runUploads freshRateData (List.range 15) 1000) 15 =
      (Decision.reject minuteLimitMessage (15 + 5 * 60 * 1000) (some 1),
       { uploads := (runUploads freshRateData (List.range 15) 1000).uploads,
         violations := 1,
         blockedUntil := some (15 + 5 * 60 * 1000) }) := by
  refine ⟨?_, by decide, by decide, by decide⟩
  intro d now hcount b v h
  have hnm : ¬ minuteViolated d.uploads now := by
    unfold minuteViolated
    rw [windowUploads_pruneUploads (60 * 1000) now now (by omega) (le_refl now) d.uploads]
    omega
  by_cases hblk : isBlocked d now
  · obtain ⟨bb, hbu, _, hlt⟩ := isBlocked_elim d now hblk
    rw [middleware_blocked d now bb hbu hlt] at h
    simp at h
  · rcases middleware_quota_cases d now (by simpa using hblk) with
      ⟨hm, _⟩ | ⟨_, _, heq⟩ | ⟨_, _, _, heq⟩ | ⟨_, _, _, _, heq⟩ | ⟨_, heq⟩
    · exact absurd hm hnm
    · rw [heq] at h
      simp [applyViolation] at h
      exact absurd h.1 (by decide)
    · rw [heq] at h
      simp [applyViolation] at h
      exact absurd h.1 (by decide)
    · rw [heq] at h
      simp [applyViolation] at h
      exact absurd h.1 (by decide)
    · rw [heq] at h
      simp at h

theorem minute_quota_sound_and_sixteenth_rejected_witness :
    (rateLimitMiddleware freshRateData 0).1
      ≠ Decision.reject minuteLimitMessage 300000 (some 1) :=
  minute_quota_sound_and_sixteenth_rejected.1 freshRateData 0 (by decide) 300000 1

/-- C2: while `blockedUntil` is set and in the future, every request is
rejected immediately, carrying the same `blockedUntil`; the entry is left
completely untouched (no pruning, no quota re-evaluation, no increment of
`violations`). -/
theorem blocked_request_rejected_state_unchanged (d : RateData) (now b : Nat)
    (hb : d.blockedUntil = some b) (hnow : now < b) :
    rateLimitMiddleware d now = (Decision.reject (blockedMessage b now) b none, d) :=
  middleware_blocked d now b hb hnow

theorem blocked_request_rejected_state_unchanged_witness :
    rateLimitMiddleware { uploads := [], violations := 2, blockedUntil := some 900000 } 60000 =
      (Decision.reject (blockedMessage 900000 60000) 900000 none,
       { uploads := [], violations := 2, blockedUntil := some 900000 }) :=
  blocked_request_rejected_state_unchanged
    { uploads := [], violations := 2, blockedUntil := some 900000 } 60000 900000 rfl (by decide)

/-- C3: on every quota violation `violations` is incremented first and the
block duration is computed from the new count — 1 ↦ 5 min, 2 ↦ 15 min,
3 ↦ 60 min, ≥ 4 ↦ 24 h — and `blockedUntil` is set to `now` plus that
duration. -/
theorem violation_escalation_table (d : RateData) (now : Nat) (msg : String) (b v : Nat)
    (h : (rateLimitMiddleware d now).1 = Decision.reject msg b (some v)) :
    v = d.violations + 1 ∧ b = now + blockDurationFor v ∧
      (rateLimitMiddleware d now).2 =
        { uploads := pruneUploads now d.uploads, violations := v, blockedUntil := some b } ∧
      blockDurationFor 1 = 5 * 60 * 1000 ∧ blockDurationFor 2 = 15 * 60 * 1000 ∧
      blockDurationFor 3 = 60 * 60 * 1000 ∧
      ∀ k, 4 ≤ k → blockDurationFor k = 24 * 60 * 60 * 1000 := by
  obtain ⟨h1, h2, h3⟩ := middleware_reject_some d now msg b v h
  refine ⟨h1, h2, h3, by decide, by decide, by decide, ?_⟩
  intro k hk
  unfold blockDurationFor
  split_ifs <;> omega

/-- Fifteen events at time 0, enough to trip the minute quota at time 0. -/
def fifteenEvents : List UploadEvent :=
  List.replicate 15 { timestamp := 0, size := 1000, filename := "f.jpg" }

theorem violation_escalation_table_witness :
    1 = 0 + 1 ∧ 300000 = 0 + blockDurationFor 1 ∧
      (rateLimitMiddleware { uploads := fifteenEvents, violations := 0, blockedUntil := none } 0).2 =
        { uploads := pruneUploads 0 fifteenEvents, violations := 1, blockedUntil := some 300000 } :=
  ⟨(violation_escalation_table
      { uploads := fifteenEvents, violations := 0, blockedUntil := none } 0
      minuteLimitMessage 300000 1 (by decide)).1,
   (violation_escalation_table
      { uploads := fifteenEvents, violations := 0, blockedUntil := none } 0
      minuteLimitMessage 300000 1 (by decide)).2.1,
   (violation_escalation_table
      { uploads := fifteenEvents, violations := 0, blockedUntil := none } 0
      minuteLimitMessage 300000 1 (by decide)).2.2.1⟩

/-- C4: recording a successfully completed upload appends the event, resets
`violations` to 0 and clears `blockedUntil`, so that a subsequent request that
is within all quotas is admitted. -/
theorem record_resets_violation_state (d : RateData) (t s now : Nat) (fn : String)
    (hq : withinQuotas (recordUpload d t s fn).uploads now) :
    (recordUpload d t s fn).uploads
        = d.uploads ++ [{ timestamp := t, size := s, filename := fn }] ∧
    (recordUpload d t s fn).violations = 0 ∧
    (recordUpload d t s fn).blockedUntil = none ∧
    (rateLimitMiddleware (recordUpload d t s fn) now).1 = Decision.allow := by
  refine ⟨rfl, rfl, rfl, ?_⟩
  have hblk : isBlocked (recordUpload d t s fn) now = false := rfl
  rcases middleware_quota_cases (recordUpload d t s fn) now hblk with
    ⟨hm, _⟩ | ⟨_, hh, _⟩ | ⟨_, _, hd, _⟩ | ⟨_, _, _, hs, _⟩ | ⟨_, heq⟩
  · exact absurd hm hq.1
  · exact absurd hh hq.2.1
  · exact absurd hd hq.2.2.1
  · exact absurd hs hq.2.2.2
  · rw [heq]

theorem record_resets_violation_state_witness :
    (recordUpload { uploads := [], violations := 3, blockedUntil := some 999999999 }
        0 1000 "a.png").uploads
      = [{ timestamp := 0, size := 1000, filename := "a.png" }] ∧
    (recordUpload { uploads := [], violations := 3, blockedUntil := some 999999999 }
        0 1000 "a.png").violations = 0 ∧
    (recordUpload { uploads := [], violations := 3, blockedUntil := some 999999999 }
        0 1000 "a.png").blockedUntil = none ∧
    (rateLimitMiddleware
        (recordUpload { uploads := [], violations := 3, blockedUntil := some 999999999 }
          0 1000 "a.png") 1).1 = Decision.allow :=
  record_resets_violation_state
    { uploads := [], violations := 3, blockedUntil := some 999999999 } 0 1000 1 "a.png"
    (by decide)

/-- C5: when several quota conditions are violated simultaneously they are
checked in the fixed priority order minute count, hour count, day count, hour
size; the message returned is that of the first violated condition, and
lower-priority violations are not reported. -/
theorem violation_priority_order (d : RateData) (now : Nat)
    (hblk : isBlocked d now = false) :
    (minuteViolated d.uploads now →
       (rateLimitMiddleware d now).1 =
         Decision.reject minuteLimitMessage (now + blockDurationFor (d.violations + 1))
           (some (d.violations + 1))) ∧
    (¬ minuteViolated d.uploads now → hourViolated d.uploads now →
       (rateLimitMiddleware d now).1 =
         Decision.reject hourLimitMessage (now + blockDurationFor (d.violations + 1))
           (some (d.violations + 1))) ∧
    (¬ minuteViolated d.uploads now → ¬ hourViolated d.uploads now →
       dayViolated d.uploads now →
       (rateLimitMiddleware d now).1 =
         Decision.reject dayLimitMessage (now + blockDurationFor (d.violations + 1))
           (some (d.violations + 1))) ∧
    (¬ minuteViolated d.uploads now → ¬ hourViolated d.uploads now →
       ¬ dayViolated d.uploads now → hourSizeViolated d.uploads now →
       (rateLimitMiddleware d now).1 =
         Decision.reject sizeLimitMessage (now + blockDurationFor (d.violations + 1))
           (some (d.violations + 1))) := by
  rcases middleware_quota_cases d now hblk with
    ⟨hm, heq⟩ | ⟨hm, hh, heq⟩ | ⟨hm, hh, hd, heq⟩ | ⟨hm, hh, hd, hs, heq⟩ | ⟨hq, heq⟩
  · exact ⟨fun _ => by rw [heq]; rfl, fun hnm _ => absurd hm hnm,
      fun hnm _ _ => absurd hm hnm, fun hnm _ _ _ => absurd hm hnm⟩
  · exact ⟨fun hm' => absurd hm' hm, fun _ _ => by rw [heq]; rfl,
      fun _ hnh _ => absurd hh hnh, fun _ hnh _ _ => absurd hh hnh⟩
  · exact ⟨fun hm' => absurd hm' hm, fun _ hh' => absurd hh' hh,
      fun _ _ _ => by rw [heq]; rfl, fun _ _ hnd _ => absurd hd hnd⟩
  · exact ⟨fun hm' => absurd hm' hm, fun _ hh' => absurd hh' hh,
      fun _ _ hd' => absurd hd' hd, fun _ _ _ _ => by rw [heq]; rfl⟩
  · exact ⟨fun hm' => absurd hm' hq.1, fun _ hh' => absurd hh' hq.2.1,
      fun _ _ hd' => absurd hd' hq.2.2.1, fun _ _ _ hs' => absurd hs' hq.2.2.2⟩

/-- 150 events at time 0: at time 0 this violates the minute, hour and day
quotas simultaneously (but not the hourly-size quota). -/
def manyEvents : List UploadEvent :=
  List.replicate 150 { timestamp := 0, size := 1000, filename := "f.jpg" }

set_option maxRecDepth 4000 in
theorem violation_priority_order_witness :
    (rateLimitMiddleware { uploads := manyEvents, violations := 0, blockedUntil := none } 0).1 =
      Decision.reject minuteLimitMessage (0 + blockDurationFor (0 + 1)) (some (0 + 1)) :=
  (violation_priority_order
    { uploads := manyEvents, violations := 0, blockedUntil := none } 0 (by decide)).1
    (by decide)

/-- C6 counterexample: a fresh client records four 11 MiB uploads (44 MiB);
the fifth upload of the hour is then *admitted*, not rejected — evaluation
sums only the previously recorded bytes, which are still below 50 MiB. -/
theorem fifth_eleven_mib_upload_admitted :
    (rateLimitMiddleware (runUploads freshRateData [0, 1, 2, 3] (11 * 1024 * 1024)) 4).1
      = Decision.allow ∧
    sumSizes (windowUploads (60 * 60 * 1000) 4
        (runUploads freshRateData [0, 1, 2, 3] (11 * 1024 * 1024)).uploads)
      = 44 * 1024 * 1024 := by decide

/-- C6 (amended): with uploads of 11 MiB each, the hourly-size violation fires
on the sixth request — the first one evaluated after the recorded hourly total
(5 × 11 MiB = 55 MiB) has crossed 50 MiB — even though the hourly count (5) is
far below the hourly quota of 100. -/
theorem hourly_size_violation_on_sixth_request :
    (runUploads freshRateData [0, 1, 2, 3, 4] (11 * 1024 * 1024)).uploads.length = 5 ∧
    sumSizes (windowUploads (60 * 60 * 1000) 5
        (runUploads freshRateData [0, 1, 2, 3, 4] (11 * 1024 * 1024)).uploads)
      = 55 * 1024 * 1024 ∧
    rateLimitMiddleware (runUploads freshRateData [0, 1, 2, 3, 4] (11 * 1024 * 1024)) 5 =
      (Decision.reject sizeLimitMessage (5 + 5 * 60 * 1000) (some 1),
       { uploads := (runUploads freshRateData [0, 1, 2, 3, 4] (11 * 1024 * 1024)).uploads,
         violations := 1,
         blockedUntil := some (5 + 5 * 60 * 1000) }) := by decide

/-- C7 counterexample: the already-blocked rejection (lines 41-44) carries
only the message and `blockedUntil` — its JSON body has no `violations`
field. -/
theorem blocked_rejection_lacks_violation_count :
    Decision.hasViolationCount
        (rateLimitMiddleware { uploads := [], violations := 1, blockedUntil := some 1000 } 0).1
      = false ∧
    (rateLimitMiddleware { uploads := [], violations := 1, blockedUntil := some 1000 } 0).1
      = Decision.reject (blockedMessage 1000 0) 1000 none := by decide

/-- C7 (amended): every rejection carries the message and the `blockedUntil`
timestamp, but the `violations` count is carried exactly by fresh-violation
rejections (where it is the newly incremented count); the already-blocked
rejection omits it. -/
theorem rejection_payload_fields (d : RateData) (now : Nat) (msg : String) (b : Nat)
    (vo : Option Nat) (h : (rateLimitMiddleware d now).1 = Decision.reject msg b vo) :
    (isBlocked d now = true →
       vo = none ∧ d.blockedUntil = some b ∧ msg = blockedMessage b now) ∧
    (isBlocked d now = false →
       vo = some (d.violations + 1) ∧ b = now + blockDurationFor (d.violations + 1)) := by
  by_cases hblk : isBlocked d now
  · obtain ⟨bb, hbu, _, hlt⟩ := isBlocked_elim d now hblk
    rw [middleware_blocked d now bb hbu hlt] at h
    simp at h
    obtain ⟨hmsg, hb, hvo⟩ := h
    subst hb
    exact ⟨fun _ => ⟨hvo.symm, hbu, hmsg.symm⟩, fun hf => absurd hblk (by simp [hf])⟩
  · have hblk' : isBlocked d now = false := by simpa using hblk
    refine ⟨fun ht => absurd ht (by simp [hblk']), fun _ => ?_⟩
    rcases middleware_quota_cases d now hblk' with
      ⟨_, heq⟩ | ⟨_, _, heq⟩ | ⟨_, _, _, heq⟩ | ⟨_, _, _, _, heq⟩ | ⟨_, heq⟩ <;>
      rw [heq] at h
    · simp [applyViolation] at h
      exact ⟨h.2.2.symm, h.2.1.symm⟩
    · simp [applyViolation] at h
      exact ⟨h.2.2.symm, h.2.1.symm⟩
    · simp [applyViolation] at h
      exact ⟨h.2.2.symm, h.2.1.symm⟩
    · simp [applyViolation] at h
      exact ⟨h.2.2.symm, h.2.1.symm⟩
    · simp at h

theorem rejection_payload_fields_witness :
    (none : Option Nat) = none ∧
    ({ uploads := [], violations := 1, blockedUntil := some 1000 } : RateData).blockedUntil
      = some 1000 ∧
    blockedMessage 1000 0 = blockedMessage 1000 0 :=
  (rejection_payload_fields { uploads := [], violations := 1, blockedUntil := some 1000 } 0
      (blockedMessage 1000 0) 1000 none (by decide)).1 (by decide)

/-- C8: an admitted request whose upload fails before completion records no
event: at any later time the client's minute/hour/day window counts, its
hourly size sum, and its violation state are exactly what they would have been
had the request never happened. -/
theorem failed_upload_changes_no_quota (d : RateData) (now s rt nowLater : Nat) (fn : String)
    (hpass : (rateLimitMiddleware d now).1 = Decision.allow) (hle : now ≤ nowLater) :
    (processUpload d now s fn false rt).1 = Decision.allow ∧
    windowUploads (60 * 1000) nowLater (processUpload d now s fn false rt).2.uploads
      = windowUploads (60 * 1000) nowLater d.uploads ∧
    windowUploads (60 * 60 * 1000) nowLater (processUpload d now s fn false rt).2.uploads
      = windowUploads (60 * 60 * 1000) nowLater d.uploads ∧
    windowUploads (24 * 60 * 60 * 1000) nowLater (processUpload d now s fn false rt).2.uploads
      = windowUploads (24 * 60 * 60 * 1000) nowLater d.uploads ∧
    sumSizes (windowUploads (60 * 60 * 1000) nowLater (processUpload d now s fn false rt).2.uploads)
      = sumSizes (windowUploads (60 * 60 * 1000) nowLater d.uploads) ∧
    (processUpload d now s fn false rt).2.violations = d.violations ∧
    (processUpload d now s fn false rt).2.blockedUntil = d.blockedUntil := by
  have hmw : rateLimitMiddleware d now
      = (Decision.allow, { d with uploads := pruneUploads now d.uploads }) :=
    Prod.ext_iff.mpr ⟨hpass, middleware_allow_snd d now hpass⟩
  have hproc : processUpload d now s fn false rt
      = (Decision.allow, { d with uploads := pruneUploads now d.uploads }) := by
    unfold processUpload
    rw [hmw]
    rfl
  rw [hproc]
  have hmin := windowUploads_pruneUploads (60 * 1000) now nowLater (by omega) hle d.uploads
  have hhour := windowUploads_pruneUploads (60 * 60 * 1000) now nowLater (by omega) hle d.uploads
  have hday :=
    windowUploads_pruneUploads (24 * 60 * 60 * 1000) now nowLater (by omega) hle d.uploads
  exact ⟨rfl, hmin, hhour, hday, by rw [hhour], rfl, rfl⟩

/-- A one-event client state used by witnesses. -/
def oneEventData : RateData :=
  { uploads := [{ timestamp := 0, size := 5, filename := "x.png" }]
    violations := 0
    blockedUntil := none }

theorem failed_upload_changes_no_quota_witness :
    (processUpload oneEventData 1 7777 "y.png" false 2).1 = Decision.allow ∧
    windowUploads (60 * 1000) 3 (processUpload oneEventData 1 7777 "y.png" false 2).2.uploads
      = windowUploads (60 * 1000) 3 oneEventData.uploads ∧
    windowUploads (60 * 60 * 1000) 3 (processUpload oneEventData 1 7777 "y.png" false 2).2.uploads
      = windowUploads (60 * 60 * 1000) 3 oneEventData.uploads ∧
    windowUploads (24 * 60 * 60 * 1000) 3
        (processUpload oneEventData 1 7777 "y.png" false 2).2.uploads
      = windowUploads (24 * 60 * 60 * 1000) 3 oneEventData.uploads ∧
    sumSizes (windowUploads (60 * 60 * 1000) 3
        (processUpload oneEventData 1 7777 "y.png" false 2).2.uploads)
      = sumSizes (windowUploads (60 * 60 * 1000) 3 oneEventData.uploads) ∧
    (processUpload oneEventData 1 7777 "y.png" false 2).2.violations
      = oneEventData.violations ∧
    (processUpload oneEventData 1 7777 "y.png" false 2).2.blockedUntil
      = oneEventData.blockedUntil :=
  failed_upload_changes_no_quota oneEventData 1 7777 2 3 "y.png" (by decide) (by decide)

/-- Characterization of entry deletion by the sweep, for entries whose
`blockedUntil` is not the (unreachable) literal `0`. -/
theorem sweepEntry_eq_none_iff (now : Nat) (d : RateData) (hb : d.blockedUntil ≠ some 0) :
    sweepEntry now d = none ↔
      sweepPrune now d.uploads = [] ∧
        (d.blockedUntil = none ∨ ∃ b, d.blockedUntil = some b ∧ b < now) := by
  unfold sweepEntry
  cases hbu : d.blockedUntil with
  | none =>
    by_cases hempty : sweepPrune now d.uploads = []
    · simp [unblockedOrExpired, hempty]
    · simp [unblockedOrExpired, hempty, List.length_eq_zero]
  | some b =>
    have hb0 : b ≠ 0 := fun h => hb (by rw [hbu, h])
    by_cases hempty : sweepPrune now d.uploads = []
    · by_cases hgt : now > b
      · simp [unblockedOrExpired, hempty, hgt, hb0]
      · simp [unblockedOrExpired, hempty, hgt, hb0]
    · simp [unblockedOrExpired, hempty, List.length_eq_zero]

/-- The sweep on a one-entry store: the entry is pruned, and dropped exactly
when `sweepEntry` deletes it. -/
theorem sweepAll_singleton (now : Nat) (ip : String) (d : RateData) :
    sweepAll now [(ip, d)]
      = if sweepEntry now d = none then []
        else [(ip, { d with uploads := sweepPrune now d.uploads })] := by
  unfold sweepAll
  cases hse : sweepEntry now d with
  | none => simp [hse]
  | some d' =>
    have hd' : d' = { d with uploads := sweepPrune now d.uploads } := by
      unfold sweepEntry at hse
      by_cases hcond : ((sweepPrune now d.uploads).length == 0
          && unblockedOrExpired now d.blockedUntil) = true
      · rw [if_pos hcond] at hse
        exact absurd hse (by simp)
      · rw [if_neg hcond] at hse
        exact (Option.some_inj.mp hse).symm
    simp [hse, hd']

/-- C9: the hourly sweep removes from the store exactly the entries whose
pruned event list is empty and whose `blockedUntil` is unset or already in the
past; in particular an entry with empty events but a still-future
`blockedUntil` is retained. -/
theorem sweep_removes_exactly_dead_entries (now : Nat) (ip : String) (d : RateData)
    (hb : d.blockedUntil ≠ some 0) :
    (sweepEntry now d = none ↔
       sweepPrune now d.uploads = [] ∧
         (d.blockedUntil = none ∨ ∃ b, d.blockedUntil = some b ∧ b < now)) ∧
    sweepAll now [(ip, d)]
      = (if sweepEntry now d = none then []
         else [(ip, { d with uploads := sweepPrune now d.uploads })]) ∧
    (d.uploads = [] → (∃ b, d.blockedUntil = some b ∧ now < b) →
       sweepAll now [(ip, d)] = [(ip, d)]) := by
  refine ⟨sweepEntry_eq_none_iff now d hb, sweepAll_singleton now ip d, ?_⟩
  rintro hup ⟨b, hbu, hlt⟩
  have hkeep : sweepEntry now d ≠ none := by
    intro hnone
    rw [sweepEntry_eq_none_iff now d hb] at hnone
    obtain ⟨-, hdead⟩ := hnone
    rcases hdead with hnone | ⟨b', hbu', hlt'⟩
    · rw [hbu] at hnone
      exact Option.noConfusion hnone
    · rw [hbu] at hbu'
      have : b = b' := Option.some_inj.mp hbu'
      omega
  rw [sweepAll_singleton now ip d, if_neg hkeep]
  have : ({ d with uploads := sweepPrune now d.uploads } : RateData) = d := by
    cases d with
    | mk u v bu =>
      simp at hup
      subst hup
      rfl
  rw [this]

theorem sweep_removes_exactly_dead_entries_witness :
    ((sweepEntry 5 { uploads := [], violations := 1, blockedUntil := some 1000 } = none ↔
       sweepPrune 5 ([] : List UploadEvent) = [] ∧
         ((some 1000 : Option Nat) = none ∨
          ∃ b, (some 1000 : Option Nat) = some b ∧ b < 5)) ∧
    sweepAll 5 [("1.2.3.4", { uploads := [], violations := 1, blockedUntil := some 1000 })]
      = (if sweepEntry 5 { uploads := [], violations := 1, blockedUntil := some 1000 } = none
         then []
         else [("1.2.3.4", { uploads := [], violations := 1, blockedUntil := some 1000 })]) ∧
    (([] : List UploadEvent) = [] →
       (∃ b, (some 1000 : Option Nat) = some b ∧ 5 < b) →
       sweepAll 5 [("1.2.3.4", { uploads := [], violations := 1, blockedUntil := some 1000 })]
         = [("1.2.3.4", { uploads := [], violations := 1, blockedUntil := some 1000 })])) ∧
    sweepAll 5 [("1.2.3.4", { uploads := [], violations := 1, blockedUntil := some 1000 })]
      = [("1.2.3.4", { uploads := [], violations := 1, blockedUntil := some 1000 })] :=
  ⟨sweep_removes_exactly_dead_entries 5 "1.2.3.4"
      { uploads := [], violations := 1, blockedUntil := some 1000 } (by decide),
   (sweep_removes_exactly_dead_entries 5 "1.2.3.4"
      { uploads := [], violations := 1, blockedUntil := some 1000 } (by decide)).2.2
      rfl ⟨1000, rfl, by decide⟩⟩

/-- C10: quota evaluation reads only previously completed-and-recorded
events: the decision for a request is independent of the current upload's
size, filename, completion outcome and record time; a request that fails
before completion leaves the stored entry exactly as the middleware left it;
and only a completed admitted upload appends its event (at record time). -/
theorem evaluation_reads_only_recorded_events (d : RateData) (now : Nat)
    (s1 s2 rt1 rt2 : Nat) (fn1 fn2 : String) (c1 c2 : Bool) :
    (processUpload d now s1 fn1 c1 rt1).1 = (processUpload d now s2 fn2 c2 rt2).1 ∧
    (processUpload d now s1 fn1 false rt1).2 = (rateLimitMiddleware d now).2 ∧
    ((rateLimitMiddleware d now).1 = Decision.allow →
       (processUpload d now s1 fn1 true rt1).2.uploads
         = pruneUploads now d.uploads
             ++ [{ timestamp := rt1, size := s1, filename := fn1 }]) := by
  refine ⟨?_, ?_, ?_⟩
  · unfold processUpload
    cases hmw : rateLimitMiddleware d now with
    | mk dec st =>
      cases dec with
      | allow => cases c1 <;> cases c2 <;> rfl
      | reject m b vo => rfl
  · unfold processUpload
    cases hmw : rateLimitMiddleware d now with
    | mk dec st =>
      cases dec with
      | allow => rfl
      | reject m b vo => rfl
  · intro hpass
    have hmw : rateLimitMiddleware d now
        = (Decision.allow, { d with uploads := pruneUploads now d.uploads }) :=
      Prod.ext_iff.mpr ⟨hpass, middleware_allow_snd d now hpass⟩
    unfold processUpload
    rw [hmw]
    rfl

theorem evaluation_reads_only_recorded_events_witness :
    (processUpload freshRateData 0 5 "a.png" true 0).1
      = (processUpload freshRateData 0 999999 "b.png" false 7).1 ∧
    (processUpload freshRateData 0 5 "a.png" false 0).2
      = (rateLimitMiddleware freshRateData 0).2 ∧
    (processUpload freshRateData 0 5 "a.png" true 0).2.uploads
      = pruneUploads 0 freshRateData.uploads
          ++ [{ timestamp := 0, size := 5, filename := "a.png" }] :=
  ⟨(evaluation_reads_only_recorded_events freshRateData 0 5 999999 0 7
      "a.png" "b.png" true false).1,
   (evaluation_reads_only_recorded_events freshRateData 0 5 999999 0 7
      "a.png" "b.png" true false).2.1,
   (evaluation_reads_only_recorded_events freshRateData 0 5 999999 0 7
      "a.png" "b.png" true false).2.2 (by decide)⟩
